import Mathlib

/-!
Shallow embedding of `src/sql_go/sqlite.go`: a tutorial Go program driving a
SQLite table `users(id INTEGER PRIMARY KEY AUTOINCREMENT, name TEXT NOT NULL,
email TEXT UNIQUE, score INTEGER)` through insert, update, single-row and
multi-row queries, a transactional score transfer, and a context-bounded query.

Modelling choices:
* The table state is the list of rows in rowid (insertion) order plus the next
  AUTOINCREMENT id.  Go `int` / SQLite INTEGER scores and ids are modelled as
  `Int` (the program never approaches the 64-bit bound).
* Go strings are never SQL NULL, so `name` and `email` are plain `String`s;
  the `NOT NULL` constraint on `name` is therefore always satisfied, and the
  `UNIQUE` constraint on `email` compares string equality.
* Driver-level failures (connection loss, failed `Begin`/`Exec`/`Commit`) are
  injected through explicit oracle parameters, mirroring the `err != nil`
  branches of the Go code; the pure SQL semantics of each statement is encoded
  directly.
-/

/-- A row of the `users` table, as scanned into the Go `User` struct. -/
structure User where
  id : Int
  name : String
  email : String
  score : Int
deriving DecidableEq

/-- The state of the `users` table: rows in rowid order, plus the next
AUTOINCREMENT id to be assigned. -/
structure DB where
  rows : List User
  nextId : Int
deriving DecidableEq

/-- The distinguishable error kinds surfaced by the store operations
(the spec's `NotFound`, `ConstraintViolation`, `StoreUnavailable`,
`DeadlineExceeded`). -/
inductive StoreError where
  | notFound (id : Int)
  | constraintViolation
  | storeUnavailable
  | deadlineExceeded
deriving DecidableEq

/-- Terminal state of the scoped transaction opened by `transferScore`:
either `db.Begin` failed and no transaction existed, or the deferred
`tx.Rollback()` / successful `tx.Commit()` left it released. -/
inductive TxFinal where
  | notOpened
  | committed
  | rolledBack
deriving DecidableEq

/-- Fault oracle for `transferScore`: which of the driver calls inside the
transaction return a non-nil error (`db.Begin`, the debit `Exec`, the credit
`Exec`, `tx.Commit`). -/
structure Faults where
  beginFails : Bool
  debitFails : Bool
  creditFails : Bool
  commitFails : Bool
deriving DecidableEq

/-- The all-clear oracle: every driver call succeeds. -/
def noFaults : Faults := ⟨false, false, false, false⟩

/-- Schema bootstrap: `initDB` runs `CREATE TABLE IF NOT EXISTS users (...)`; on a fresh
database file the table is empty and AUTOINCREMENT starts at 1. -/
def initDB : DB := ⟨[], 1⟩

/-- Row-id uniqueness, enforced by `id INTEGER PRIMARY KEY`. -/
def wf (db : DB) : Prop := db.rows.Pairwise (fun a b => a.id ≠ b.id)

/-- Insert: `insertUser` runs `INSERT INTO users (name, email, score) VALUES (?, ?, ?)`.
The `UNIQUE` constraint on `email` rejects a duplicate (Go sees a non-nil
error from `db.Exec` and the table is unchanged); otherwise the row is
appended with the next AUTOINCREMENT id, which `LastInsertId` returns.
The `NOT NULL` constraint on `name` cannot fire: the Go parameter is a
non-nullable `string`. Returns the post-state and the Go return value. -/
def insertUser (db : DB) (name email : String) (score : Int) :
    DB × Except StoreError Int :=
  if db.rows.any (fun r => r.email == email) then
    (db, .error .constraintViolation)
  else
    ({ rows := db.rows ++ [⟨db.nextId, name, email, score⟩],
       nextId := db.nextId + 1 }, .ok db.nextId)

/-- Update: `updateScore` runs `UPDATE users SET score = ? WHERE id = ?`.  Rows matching
the id get the new score; with no matching row the statement succeeds and
affects zero rows.  The Go function returns nothing (errors are only logged),
so the model returns just the post-state. -/
def updateScore (db : DB) (id : Int) (newScore : Int) : DB :=
  { db with
    rows := db.rows.map (fun r =>
      if r.id == id then { r with score := newScore } else r) }

/-- Single-row read: `getUserByID` runs `SELECT id, name, email, score FROM users WHERE id = ?`
via `QueryRow` + `Scan`.  `QueryRow` yields the first matching row; when
`Scan` reports `sql.ErrNoRows` the function returns its not-found error. -/
def getUserByID (db : DB) (id : Int) : Except StoreError User :=
  match db.rows.find? (fun r => r.id == id) with
  | some u => .ok u
  | none => .error (.notFound id)

/-- Insertion step of `ORDER BY score DESC`: place `u` before the first
element whose score does not exceed it, so that earlier rows precede later
rows of equal score (store-native row order on ties). -/
def insertDesc (u : User) : List User → List User
  | [] => [u]
  | v :: vs => if v.score ≤ u.score then u :: v :: vs else v :: insertDesc u vs

/-- Stable descending-by-score sort of the rows, the result order of
`SELECT ... ORDER BY score DESC`. -/
def sortByScoreDesc : List User → List User
  | [] => []
  | u :: us => insertDesc u (sortByScoreDesc us)

/-- Multi-row read: `getAllUsers` runs `SELECT id, name, email, score FROM users ORDER BY score
DESC`, scanned row by row into a materialized slice. -/
def getAllUsers (db : DB) : List User :=
  sortByScoreDesc db.rows

/-- One transactional `UPDATE users SET score = score + ? WHERE id = ?`
(the debit uses a negative delta): every row matching the id has its score
shifted; no matching row means zero rows affected and no error. -/
def txUpdateAdd (rows : List User) (id : Int) (delta : Int) : List User :=
  rows.map (fun r =>
    if r.id == id then { r with score := r.score + delta } else r)

/-- Transfer: `transferScoreTx` runs `transferScore` under the fault oracle `f`.  Mirrors the Go control flow:
`db.Begin` (early return if it fails, no transaction opened); `defer
tx.Rollback()`; debit `Exec`; credit `Exec`; `tx.Commit`.  An error from any
`Exec` or from `Commit` causes an early return on which the deferred rollback
discards the uncommitted updates (after a successful `Commit` the deferred
`Rollback` is a no-op on the finalized transaction).  The Go function returns
nothing — errors are only logged — so the model returns the post-state and
the transaction's terminal state. -/
def transferScoreTx (f : Faults) (db : DB) (fromID toID : Int) (amount : Int) :
    DB × TxFinal :=
  if f.beginFails then (db, .notOpened)
  else if f.debitFails then (db, .rolledBack)
  else
    let r1 := txUpdateAdd db.rows fromID (-amount)
    if f.creditFails then (db, .rolledBack)
    else
      let r2 := txUpdateAdd r1 toID amount
      if f.commitFails then (db, .rolledBack)
      else ({ db with rows := r2 }, .committed)

/-- The function `transferScore` as executed when the driver reports no failure. -/
def transferScore (db : DB) (fromID toID : Int) (amount : Int) : DB × TxFinal :=
  transferScoreTx noFaults db fromID toID amount

/-- Go context errors relevant to `ctx.Err()`. -/
inductive GoCtxErr where
  | deadlineExceeded
  | canceled
deriving DecidableEq

/-- Bounded-wait query: `queryWithTimeout` runs `QueryContext` under a 1 ms deadline.  The model
takes the outcome of `QueryContext` (the rows, or a non-nil error) and the
value of `ctx.Err()` as oracle inputs resolving the race between the read and
the timer.  Mirrors the Go branches: a query error is reported as the
distinguishable timeout error when `ctx.Err() == context.DeadlineExceeded`,
otherwise passed through as a driver failure; on success the rows are closed
by the deferred `Close` and `nil` is returned (the function returns no rows
to its caller). -/
def queryWithTimeout (queryResult : Except Unit (List User))
    (ctxErr : Option GoCtxErr) : Except StoreError Unit :=
  match queryResult with
  | .error _ =>
      if ctxErr = some GoCtxErr.deadlineExceeded then
        .error .deadlineExceeded
      else
        .error .storeUnavailable
  | .ok _ => .ok ()

/-- The score of the row `WHERE id = ?` (first match, as `QueryRow` sees it),
if any. -/
def scoreOf (db : DB) (id : Int) : Option Int :=
  (db.rows.find? (fun r => r.id == id)).map (fun r => r.score)

/-- Sum of all scores in the table, the conserved quantity of the spec. -/
def scoreSum (rows : List User) : Int :=
  (rows.map (fun r => r.score)).sum

/-- Concrete one-row table used as witness/counterexample input. -/
def dbAlice : DB := ⟨[⟨1, "Alice", "alice@example.com", 100⟩], 2⟩

/-- Concrete two-row table (the spec's Alice/Bob scenario) used as witness
input. -/
def dbAliceBob : DB :=
  ⟨[⟨1, "Alice", "alice@example.com", 100⟩, ⟨2, "Bob", "bob@example.com", 150⟩], 3⟩

/-! ## Helper lemmas -/

/-- A `WHERE id = ?` update matching no row of the list is the identity. -/
theorem map_unmatched_id (rows : List User) (id : Int) (f : User → User)
    (h : ∀ r ∈ rows, r.id ≠ id) :
    rows.map (fun r => if r.id == id then f r else r) = rows := by
  induction rows with
  | nil => rfl
  | cons r rs ih =>
    have hr : (r.id == id) = false := by
      simp only [beq_eq_false_iff_ne, ne_eq]
      exact h r (List.mem_cons_self r rs)
    simp only [List.map_cons]
    rw [if_neg (by simp [hr]), ih (fun r hm => h r (List.mem_cons_of_mem _ hm))]

/-- The debit/credit update is the identity when the id is absent. -/
theorem txUpdateAdd_not_mem (rows : List User) (id delta : Int)
    (h : ∀ r ∈ rows, r.id ≠ id) :
    txUpdateAdd rows id delta = rows :=
  map_unmatched_id rows id _ h

/-- The per-row debit/credit adjustment keeps the row id. -/
theorem ite_update_id (r : User) (id delta : Int) :
    (if r.id == id then { r with score := r.score + delta } else r).id = r.id := by
  by_cases hc : (r.id == id) = true
  · rw [if_pos hc]
  · rw [if_neg hc]

/-- First-match lookup after a debit/credit update: the found row is the
found row of the original list, adjusted when its id is the updated one. -/
theorem find?_txUpdateAdd (rows : List User) (id delta i : Int) :
    (txUpdateAdd rows id delta).find? (fun r => r.id == i) =
      (rows.find? (fun r => r.id == i)).map
        (fun r => if r.id == id then { r with score := r.score + delta } else r) := by
  unfold txUpdateAdd
  rw [List.find?_map]
  have hp : ((fun r : User => r.id == i) ∘
      (fun r => if r.id == id then { r with score := r.score + delta } else r)) =
      (fun r : User => r.id == i) := by
    funext r
    simp only [Function.comp_apply, ite_update_id]
  rw [hp]

/-- Scores sum over a cons cell. -/
theorem scoreSum_cons (r : User) (rs : List User) :
    scoreSum (r :: rs) = r.score + scoreSum rs := by
  simp [scoreSum]

/-- With unique row ids, a debit/credit update of a present id shifts the
total score by exactly the delta. -/
theorem scoreSum_txUpdateAdd (rows : List User) (id delta : Int)
    (hwf : rows.Pairwise (fun a b => a.id ≠ b.id))
    (hmem : ∃ r ∈ rows, r.id = id) :
    scoreSum (txUpdateAdd rows id delta) = scoreSum rows + delta := by
  induction rows with
  | nil => rcases hmem with ⟨r, hr, _⟩; cases hr
  | cons r rs ih =>
    rw [List.pairwise_cons] at hwf
    rcases hmem with ⟨u, hu, hid⟩
    rcases List.mem_cons.mp hu with h1 | h1
    · subst h1
      have huid : (u.id == id) = true := by simp [hid]
      have hrest : ∀ b ∈ rs, b.id ≠ id := by
        intro b hb
        rw [← hid]
        exact fun he => hwf.1 b hb he.symm
      unfold txUpdateAdd
      simp only [List.map_cons]
      rw [if_pos huid,
        show rs.map (fun r => if r.id == id then { r with score := r.score + delta } else r)
          = rs from map_unmatched_id rs id _ hrest,
        scoreSum_cons, scoreSum_cons]
      have hs : ({ u with score := u.score + delta } : User).score = u.score + delta := rfl
      rw [hs]
      ring
    · have hrid : r.id ≠ id := by
        rw [← hid]
        exact hwf.1 u h1
      have hr : (r.id == id) = false := beq_eq_false_iff_ne.mpr hrid
      unfold txUpdateAdd
      simp only [List.map_cons]
      rw [if_neg (by simp [hr]),
        scoreSum_cons, scoreSum_cons,
        show rs.map (fun r => if r.id == id then { r with score := r.score + delta } else r)
          = txUpdateAdd rs id delta from rfl,
        ih hwf.2 ⟨u, h1, hid⟩]
      ring

/-- The debit/credit update preserves every row id. -/
theorem txUpdateAdd_id_mem (rows : List User) (id delta i : Int)
    (h : ∃ r ∈ rows, r.id = i) :
    ∃ r ∈ txUpdateAdd rows id delta, r.id = i := by
  rcases h with ⟨r, hr, hi⟩
  refine ⟨if r.id == id then { r with score := r.score + delta } else r, ?_, ?_⟩
  · exact List.mem_map_of_mem _ hr
  · rw [ite_update_id]
    exact hi

/-- The debit/credit update preserves id-uniqueness of the rows. -/
theorem txUpdateAdd_pairwise (rows : List User) (id delta : Int)
    (h : rows.Pairwise (fun a b => a.id ≠ b.id)) :
    (txUpdateAdd rows id delta).Pairwise (fun a b => a.id ≠ b.id) := by
  unfold txUpdateAdd
  refine List.Pairwise.map _ ?_ h
  intro a b hab
  rw [ite_update_id, ite_update_id]
  exact hab

/-! ## Claim theorems -/

/-- Claim C3: on every exit path of the transfer — successful commit, failure
of the debit step, failure of the credit step, or failure of commit — the
scoped transaction reaches a released terminal state (committed or rolled
back) before `transferScore` returns; it is never left open. -/
theorem transferScore_tx_released (f : Faults) (db : DB)
    (fromID toID amount : Int) (h : f.beginFails = false) :
    (transferScoreTx f db fromID toID amount).2 = TxFinal.committed ∨
    (transferScoreTx f db fromID toID amount).2 = TxFinal.rolledBack := by
  unfold transferScoreTx
  by_cases h1 : f.debitFails <;> by_cases h2 : f.creditFails <;>
    by_cases h3 : f.commitFails <;> simp [h, h1, h2, h3]

/-- Witness for C3: a run in which the commit itself fails still ends with
the transaction rolled back. -/
theorem transferScore_tx_released_witness :
    (⟨false, false, false, true⟩ : Faults).beginFails = false ∧
    ((transferScoreTx ⟨false, false, false, true⟩ dbAlice 1 2 5).2 = TxFinal.committed ∨
     (transferScoreTx ⟨false, false, false, true⟩ dbAlice 1 2 5).2 = TxFinal.rolledBack) :=
  ⟨rfl, transferScore_tx_released ⟨false, false, false, true⟩ dbAlice 1 2 5 rfl⟩

/-- Claim C6: creating a user whose email already exists in the table fails
with the constraint-violation error and leaves the table (hence its row
count and every existing row) unchanged. -/
theorem insertUser_duplicate_email (db : DB) (name email : String) (score : Int)
    (h : ∃ r ∈ db.rows, r.email = email) :
    insertUser db name email score = (db, Except.error StoreError.constraintViolation) := by
  unfold insertUser
  rcases h with ⟨r, hr, he⟩
  rw [if_pos (List.any_eq_true.mpr ⟨r, hr, by simp [he]⟩)]

/-- Witness for C6: re-inserting the already present email fails and leaves
the one-row table as it was. -/
theorem insertUser_duplicate_email_witness :
    (∃ r ∈ dbAlice.rows, r.email = "alice@example.com") ∧
    insertUser dbAlice "Eve" "alice@example.com" 7 =
      (dbAlice, Except.error StoreError.constraintViolation) :=
  ⟨⟨⟨1, "Alice", "alice@example.com", 100⟩, by simp [dbAlice], rfl⟩,
   insertUser_duplicate_email dbAlice "Eve" "alice@example.com" 7
     ⟨⟨1, "Alice", "alice@example.com", 100⟩, by simp [dbAlice], rfl⟩⟩

/-- Counterexample to claim C7: inserting a row with an empty name into the
freshly initialized table succeeds and persists the row.  The column's
`NOT NULL` constraint only rejects SQL NULL, which the Go `string` parameter
can never be, and no non-empty check exists anywhere in the program. -/
theorem insertUser_empty_name_persists :
    insertUser initDB "" "x@example.com" 5 =
      (⟨[⟨1, "", "x@example.com", 5⟩], 2⟩, Except.ok 1) ∧
    (insertUser initDB "" "x@example.com" 5).1.rows.length = 1 :=
  ⟨rfl, rfl⟩

/-- Claim C7 as amended: creating a user with an empty (but non-null) name
and a fresh email succeeds, persisting exactly one new row with the next
AUTOINCREMENT id; no constraint-violation error occurs, because the NOT NULL
constraint only rejects SQL NULL, which the non-nullable Go string cannot
produce. -/
theorem insertUser_empty_name_ok (db : DB) (email : String) (score : Int)
    (h : ∀ r ∈ db.rows, r.email ≠ email) :
    insertUser db "" email score =
      ({ rows := db.rows ++ [⟨db.nextId, "", email, score⟩],
         nextId := db.nextId + 1 }, Except.ok db.nextId) := by
  unfold insertUser
  have ha : db.rows.any (fun r => r.email == email) = false := by
    rw [List.any_eq_false]
    intro r hr
    simp [h r hr]
  rw [if_neg (by simp [ha])]

/-- Witness for the amended C7: an empty-name insert into the fresh table
succeeds with id 1. -/
theorem insertUser_empty_name_ok_witness :
    (∀ r ∈ initDB.rows, r.email ≠ "x@example.com") ∧
    insertUser initDB "" "x@example.com" 5 =
      ({ rows := initDB.rows ++ [⟨initDB.nextId, "", "x@example.com", 5⟩],
         nextId := initDB.nextId + 1 }, Except.ok initDB.nextId) :=
  ⟨fun r hr => absurd hr (by simp [initDB]),
   insertUser_empty_name_ok initDB "x@example.com" 5
     (fun r hr => absurd hr (by simp [initDB]))⟩

/-- Claim C9: a self-transfer on an existing id succeeds (the transaction
commits) and leaves the whole table — in particular every entity's score —
exactly as it was: the debit and the credit cancel out row by row. -/
theorem transferScore_self_noop (db : DB) (x a : Int)
    (hx : ∃ r ∈ db.rows, r.id = x) :
    transferScore db x x a = (db, TxFinal.committed) := by
  have h1 : transferScore db x x a =
      ({ db with rows := txUpdateAdd (txUpdateAdd db.rows x (-a)) x a },
       TxFinal.committed) := rfl
  have h2 : txUpdateAdd (txUpdateAdd db.rows x (-a)) x a = db.rows := by
    unfold txUpdateAdd
    rw [List.map_map]
    have h3 : ∀ r ∈ db.rows,
        ((fun r : User => if r.id == x then { r with score := r.score + a } else r) ∘
         (fun r : User => if r.id == x then { r with score := r.score + -a } else r)) r
          = id r := by
      intro r _
      cases r with
      | mk i n e s =>
        by_cases hc : i = x
        · simp [hc]
        · simp [hc]
    rw [List.map_congr_left h3, List.map_id]
  rw [h1, h2]

/-- Witness for C9: a self-transfer of 5 points on the one-row table leaves
it untouched and commits. -/
theorem transferScore_self_noop_witness :
    (∃ r ∈ dbAlice.rows, r.id = 1) ∧
    transferScore dbAlice 1 1 5 = (dbAlice, TxFinal.committed) :=
  ⟨⟨⟨1, "Alice", "alice@example.com", 100⟩, by simp [dbAlice], rfl⟩,
   transferScore_self_noop dbAlice 1 5
     ⟨⟨1, "Alice", "alice@example.com", 100⟩, by simp [dbAlice], rfl⟩⟩

/-- Claim C10: updating the score of an id with no matching row is a silent
no-op — the model's return type `DB` mirrors the Go function, which returns
no error value at all (failures are only logged) — and the table is
completely unchanged. -/
theorem updateScore_missing_id_noop (db : DB) (id v : Int)
    (h : ∀ r ∈ db.rows, r.id ≠ id) :
    updateScore db id v = db := by
  unfold updateScore
  rw [map_unmatched_id db.rows id _ h]

/-- Witness for C10: updating id 2, absent from the one-row table, changes
nothing. -/
theorem updateScore_missing_id_noop_witness :
    (∀ r ∈ dbAlice.rows, r.id ≠ 2) ∧ updateScore dbAlice 2 55 = dbAlice :=
  ⟨by decide, updateScore_missing_id_noop dbAlice 2 55 (by decide)⟩

/-- Counterexample to claim C1: the claim quantifies over every pair of
existing ids, but at `fromID = toID` (both equal to the only id, 1) the
debit and credit hit the same row, whose final score equals its prior value
100 rather than the claimed prior-minus-amount 95. -/
theorem transferScore_equal_ids_counterexample :
    (∃ r ∈ dbAlice.rows, r.id = 1) ∧
    scoreOf dbAlice 1 = some 100 ∧
    scoreOf (transferScore dbAlice 1 1 5).1 1 = some 100 ∧
    scoreOf (transferScore dbAlice 1 1 5).1 1 ≠ some (100 - 5) := by
  decide

/-- Claim C1 as amended: for every pair of distinct ids `fromID ≠ toID` that
both exist in a table with unique row ids, the fault-free transfer commits,
the sender's score drops by the amount, the receiver's score rises by it,
and the sum of all scores is unchanged — also under every fault pattern
(rolled-back attempts leave the table untouched). -/
theorem transferScore_distinct_ids_spec (db : DB) (fr toID a sfr sto : Int)
    (hwf : wf db) (hne : fr ≠ toID)
    (hfr : ∃ r ∈ db.rows, r.id = fr) (hto : ∃ r ∈ db.rows, r.id = toID)
    (hs1 : scoreOf db fr = some sfr) (hs2 : scoreOf db toID = some sto) :
    scoreOf (transferScore db fr toID a).1 fr = some (sfr - a) ∧
    scoreOf (transferScore db fr toID a).1 toID = some (sto + a) ∧
    (transferScore db fr toID a).2 = TxFinal.committed ∧
    ∀ f : Faults, scoreSum (transferScoreTx f db fr toID a).1.rows = scoreSum db.rows := by
  unfold scoreOf at hs1 hs2
  obtain ⟨u, hu, hus⟩ := Option.map_eq_some'.mp hs1
  obtain ⟨v, hv, hvs⟩ := Option.map_eq_some'.mp hs2
  have huid : u.id = fr := by simpa using List.find?_some hu
  have hvid : v.id = toID := by simpa using List.find?_some hv
  refine ⟨?_, ?_, rfl, ?_⟩
  · show ((txUpdateAdd (txUpdateAdd db.rows fr (-a)) toID a).find? (fun r => r.id == fr)).map
        (fun r => r.score) = some (sfr - a)
    rw [find?_txUpdateAdd, find?_txUpdateAdd, hu]
    simp [huid, hne, Ne.symm hne, ← hus]
    ring
  · show ((txUpdateAdd (txUpdateAdd db.rows fr (-a)) toID a).find? (fun r => r.id == toID)).map
        (fun r => r.score) = some (sto + a)
    rw [find?_txUpdateAdd, find?_txUpdateAdd, hv]
    simp [hvid, hne, Ne.symm hne, ← hvs]
  · intro f
    unfold transferScoreTx
    by_cases h1 : f.beginFails <;> by_cases h2 : f.debitFails <;>
      by_cases h3 : f.creditFails <;> by_cases h4 : f.commitFails <;>
      simp [h1, h2, h3, h4]
    rw [scoreSum_txUpdateAdd _ _ _ (txUpdateAdd_pairwise _ _ _ hwf)
          (txUpdateAdd_id_mem _ _ _ _ hto),
        scoreSum_txUpdateAdd _ _ _ hwf hfr]
    ring

/-- Witness for the amended C1: the spec's Bob-to-Alice transfer of 20
points on the two-row table (Bob 150 → 130, Alice 100 → 120, sum conserved
on every fault pattern). -/
theorem transferScore_distinct_ids_spec_witness :
    wf dbAliceBob ∧ (2 : Int) ≠ 1 ∧
    (∃ r ∈ dbAliceBob.rows, r.id = 2) ∧ (∃ r ∈ dbAliceBob.rows, r.id = 1) ∧
    scoreOf dbAliceBob 2 = some 150 ∧ scoreOf dbAliceBob 1 = some 100 ∧
    (scoreOf (transferScore dbAliceBob 2 1 20).1 2 = some (150 - 20) ∧
     scoreOf (transferScore dbAliceBob 2 1 20).1 1 = some (100 + 20) ∧
     (transferScore dbAliceBob 2 1 20).2 = TxFinal.committed ∧
     ∀ f : Faults,
       scoreSum (transferScoreTx f dbAliceBob 2 1 20).1.rows = scoreSum dbAliceBob.rows) :=
  ⟨by unfold wf; decide, by decide, by decide, by decide, rfl, rfl,
   transferScore_distinct_ids_spec dbAliceBob 2 1 20 150 100
     (by unfold wf; decide) (by decide) (by decide) (by decide) rfl rfl⟩

/-- Counterexample to claim C2: transferring 20 points from the existing id
1 to the absent id 2 does not fail — the transaction commits — and the
sender's debit is visible afterwards (score 80, not the prior 100): a
partial transfer is observable because the credit `UPDATE` matched zero
rows without error. -/
theorem transferScore_missing_id_counterexample :
    scoreOf dbAlice 1 = some 100 ∧
    (transferScore dbAlice 1 2 20).2 = TxFinal.committed ∧
    scoreOf (transferScore dbAlice 1 2 20).1 1 = some 80 ∧
    scoreOf (transferScore dbAlice 1 2 20).1 1 ≠ some 100 := by
  decide

/-- Claim C2 as amended: a transfer in which the toID (respectively fromID)
matches no row does not fail with a not-found error: the update for the
missing id affects zero rows and succeeds, the transaction commits, and the
update for the other id is still applied — so a partial mutation is visible
whenever the other id exists. -/
theorem transferScore_missing_id_commits (db : DB) (fr toID a : Int) :
    ((∀ r ∈ db.rows, r.id ≠ toID) →
      transferScore db fr toID a =
        ({ db with rows := txUpdateAdd db.rows fr (-a) }, TxFinal.committed)) ∧
    ((∀ r ∈ db.rows, r.id ≠ fr) →
      transferScore db fr toID a =
        ({ db with rows := txUpdateAdd db.rows toID a }, TxFinal.committed)) := by
  constructor
  · intro h
    have h1 : transferScore db fr toID a =
        ({ db with rows := txUpdateAdd (txUpdateAdd db.rows fr (-a)) toID a },
         TxFinal.committed) := rfl
    have h2 : ∀ r ∈ txUpdateAdd db.rows fr (-a), r.id ≠ toID := by
      intro r hr
      unfold txUpdateAdd at hr
      rcases List.mem_map.mp hr with ⟨s, hs, rfl⟩
      rw [ite_update_id]
      exact h s hs
    rw [h1, txUpdateAdd_not_mem _ _ _ h2]
  · intro h
    have h1 : transferScore db fr toID a =
        ({ db with rows := txUpdateAdd (txUpdateAdd db.rows fr (-a)) toID a },
         TxFinal.committed) := rfl
    rw [h1, txUpdateAdd_not_mem db.rows fr (-a) h]

/-- Witness for the amended C2: on the one-row table, transferring to the
absent id 2 commits with only the debit applied. -/
theorem transferScore_missing_id_commits_witness :
    (∀ r ∈ dbAlice.rows, r.id ≠ 2) ∧
    transferScore dbAlice 1 2 20 =
      ({ dbAlice with rows := txUpdateAdd dbAlice.rows 1 (-20) }, TxFinal.committed) :=
  ⟨by decide, (transferScore_missing_id_commits dbAlice 1 2 20).1 (by decide)⟩

/-- With unique row ids, the first-match lookup of a present id finds
exactly that row. -/
theorem find?_eq_some_of_mem (rows : List User) (id : Int)
    (hwf : rows.Pairwise (fun a b => a.id ≠ b.id))
    (u : User) (hu : u ∈ rows) (hid : u.id = id) :
    rows.find? (fun r => r.id == id) = some u := by
  induction rows with
  | nil => cases hu
  | cons r rs ih =>
    rw [List.pairwise_cons] at hwf
    rcases List.mem_cons.mp hu with h1 | h1
    · subst h1
      exact List.find?_cons_of_pos _ (by simp [hid])
    · have hr : r.id ≠ id := by
        rw [← hid]
        exact hwf.1 u h1
      rw [List.find?_cons_of_neg _ (by simp [hr])]
      exact ih hwf.2 h1

/-- Claim C4: looking up an id with no matching row fails with the
not-found error, an error kind distinct from every infrastructure failure
kind; looking up an id with a matching row (under the primary-key
invariant) returns exactly that row's fields. -/
theorem getUserByID_spec (db : DB) (id : Int) :
    ((∀ r ∈ db.rows, r.id ≠ id) →
      getUserByID db id = Except.error (StoreError.notFound id)) ∧
    (wf db → ∀ u ∈ db.rows, u.id = id → getUserByID db id = Except.ok u) ∧
    (∀ i : Int, StoreError.notFound i ≠ StoreError.constraintViolation ∧
      StoreError.notFound i ≠ StoreError.storeUnavailable ∧
      StoreError.notFound i ≠ StoreError.deadlineExceeded) := by
  refine ⟨?_, ?_, ?_⟩
  · intro h
    unfold getUserByID
    rw [List.find?_eq_none.mpr (fun r hr => by simp [h r hr])]
  · intro hwf u hu hid
    unfold getUserByID
    rw [find?_eq_some_of_mem db.rows id hwf u hu hid]
  · intro i
    exact ⟨fun h => StoreError.noConfusion h, fun h => StoreError.noConfusion h,
      fun h => StoreError.noConfusion h⟩

/-- Witness for C4: id 2 is absent from the one-row table and yields the
not-found error; id 1 is present and yields the Alice row. -/
theorem getUserByID_spec_witness :
    getUserByID dbAlice 2 = Except.error (StoreError.notFound 2) ∧
    getUserByID dbAlice 1 = Except.ok ⟨1, "Alice", "alice@example.com", 100⟩ :=
  ⟨(getUserByID_spec dbAlice 2).1 (by decide),
   (getUserByID_spec dbAlice 1).2.1 (by unfold wf; decide)
     ⟨1, "Alice", "alice@example.com", 100⟩ (by decide) rfl⟩

/-- Membership in an insertion step is membership in the inserted element
or the list. -/
theorem mem_insertDesc (u x : User) (l : List User) :
    x ∈ insertDesc u l ↔ x = u ∨ x ∈ l := by
  induction l with
  | nil => simp [insertDesc]
  | cons v vs ih =>
    unfold insertDesc
    by_cases h : v.score ≤ u.score
    · rw [if_pos h]
      simp [List.mem_cons]
    · rw [if_neg h]
      simp [List.mem_cons, ih]
      tauto

/-- Inserting into a descending-sorted list keeps it descending-sorted. -/
theorem insertDesc_sorted (u : User) (l : List User)
    (hl : l.Pairwise (fun a b => b.score ≤ a.score)) :
    (insertDesc u l).Pairwise (fun a b => b.score ≤ a.score) := by
  induction l with
  | nil => simp [insertDesc]
  | cons v vs ih =>
    rw [List.pairwise_cons] at hl
    unfold insertDesc
    by_cases h : v.score ≤ u.score
    · rw [if_pos h, List.pairwise_cons]
      refine ⟨?_, List.pairwise_cons.mpr ⟨hl.1, hl.2⟩⟩
      intro b hb
      rcases List.mem_cons.mp hb with rfl | hb2
      · exact h
      · exact le_trans (hl.1 b hb2) h
    · rw [if_neg h, List.pairwise_cons]
      constructor
      · intro b hb
        rcases (mem_insertDesc u b vs).mp hb with rfl | hb2
        · exact le_of_not_le h
        · exact hl.1 b hb2
      · exact ih hl.2

/-- The result of the descending sort is descending-sorted. -/
theorem sortByScoreDesc_sorted (l : List User) :
    (sortByScoreDesc l).Pairwise (fun a b => b.score ≤ a.score) := by
  induction l with
  | nil => simp [sortByScoreDesc]
  | cons u us ih => exact insertDesc_sorted u _ ih

/-- Stability of the insertion step: among rows of one score, the inserted
element goes first and the rest keep their order. -/
theorem filter_insertDesc (u : User) (l : List User) (s : Int)
    (hl : l.Pairwise (fun a b => b.score ≤ a.score)) :
    (insertDesc u l).filter (fun r => r.score == s) =
      if u.score == s then u :: l.filter (fun r => r.score == s)
      else l.filter (fun r => r.score == s) := by
  induction l with
  | nil => by_cases hu : (u.score == s) = true <;> simp [insertDesc, List.filter_cons, hu]
  | cons v vs ih =>
    rw [List.pairwise_cons] at hl
    unfold insertDesc
    by_cases h : v.score ≤ u.score
    · rw [if_pos h]
      simp [List.filter_cons]
    · rw [if_neg h]
      have hvu : u.score < v.score := lt_of_not_le h
      rw [List.filter_cons, ih hl.2, List.filter_cons]
      by_cases hu : (u.score == s) = true
      · have hv : (v.score == s) = false := by
          have h1 : u.score = s := by simpa using hu
          have h2 : v.score ≠ s := by
            rw [← h1]
            exact ne_of_gt hvu
          simpa using h2
        simp [hu, hv]
      · simp [hu]

/-- Stability of the sort: filtering the sorted output down to one score
value yields the same subsequence as filtering the original rows, so ties
keep store-native row order. -/
theorem filter_sortByScoreDesc (l : List User) (s : Int) :
    (sortByScoreDesc l).filter (fun r => r.score == s) =
      l.filter (fun r => r.score == s) := by
  induction l with
  | nil => rfl
  | cons u us ih =>
    unfold sortByScoreDesc
    rw [filter_insertDesc u _ s (sortByScoreDesc_sorted us), ih, List.filter_cons]

/-- Claim C5: the list returned by the all-rows read is sorted descending
by score — whenever row A appears before row B, A's score is at least B's —
and rows of equal score appear in store-native row order (filtering the
output to any one score value gives exactly the original row subsequence). -/
theorem getAllUsers_sorted (db : DB) :
    (getAllUsers db).Pairwise (fun a b => b.score ≤ a.score) ∧
    ∀ s : Int, (getAllUsers db).filter (fun r => r.score == s) =
      db.rows.filter (fun r => r.score == s) :=
  ⟨sortByScoreDesc_sorted db.rows, fun s => filter_sortByScoreDesc db.rows s⟩

/-- Claim C8: whenever the deadline elapses before the read completes —
`QueryContext` returns a non-nil error and `ctx.Err()` reports the elapsed
deadline — the bounded-wait query returns the deadline-exceeded error, an
error kind distinct from every other kind, and no rows; whenever the read
completes in time (as a generous deadline permits), it returns success. -/
theorem queryWithTimeout_spec (queryResult : Except Unit (List User))
    (ctxErr : Option GoCtxErr) :
    ((∃ e, queryResult = Except.error e) → ctxErr = some GoCtxErr.deadlineExceeded →
      queryWithTimeout queryResult ctxErr = Except.error StoreError.deadlineExceeded) ∧
    (∀ rows, queryResult = Except.ok rows →
      queryWithTimeout queryResult ctxErr = Except.ok ()) ∧
    ((∀ i : Int, StoreError.deadlineExceeded ≠ StoreError.notFound i) ∧
      StoreError.deadlineExceeded ≠ StoreError.constraintViolation ∧
      StoreError.deadlineExceeded ≠ StoreError.storeUnavailable) := by
  refine ⟨?_, ?_, fun i h => StoreError.noConfusion h,
    fun h => StoreError.noConfusion h, fun h => StoreError.noConfusion h⟩
  · rintro ⟨e, rfl⟩ hc
    unfold queryWithTimeout
    rw [if_pos hc]
  · rintro rows rfl
    rfl

/-- Witness for C8: an elapsed 1 ms deadline yields the deadline error; a
completed read over the non-empty table yields success. -/
theorem queryWithTimeout_spec_witness :
    queryWithTimeout (Except.error ()) (some GoCtxErr.deadlineExceeded) =
      Except.error StoreError.deadlineExceeded ∧
    queryWithTimeout (Except.ok dbAlice.rows) none = Except.ok () :=
  ⟨(queryWithTimeout_spec (Except.error ()) (some GoCtxErr.deadlineExceeded)).1 ⟨(), rfl⟩ rfl,
   (queryWithTimeout_spec (Except.ok dbAlice.rows) none).2.1 dbAlice.rows rfl⟩
